import Mathlib

/-!
Verification of the IA3 scale adapter (src/lycoris/modules/ia3.py, class
IA3Module) against its specification.

Embedding conventions:
- tensor element values are rationals;
- for the weight algebra and the forward passes, tensors are index functions
  (a linear weight of shape (out, in) is a function of two Fin indices; a
  convolutional weight of shape (out, in, spatial...) takes an extra spatial
  index); the learnable scale vector is a function on positions of its single
  non-singleton axis, written over all of Nat so that the same function type
  serves both the input-scaling and the output-scaling configuration;
- for construction, reshape and device plumbing, tensors are flat records
  carrying a shape list, a row-major data list and a device tag;
- the single random draw of forward is passed in as an explicit value;
- fallible operations return Except String.
-/

namespace IA3

/-- Transpose of axes 0 and 1 of a 2-D tensor, as in torch transpose(0, 1)
applied to a linear weight of shape (out, in). -/
def transpose01 {a b : ℕ} {γ : Type} (W : Fin a → Fin b → γ) : Fin b → Fin a → γ :=
  fun i o => W o i

/-- Transpose of axes 0 and 1 of a convolutional weight of shape
(out, in, spatial...); the spatial axes are kept abstract as one index type. -/
def transpose01c {a b : ℕ} {σ : Type} (W : Fin a → Fin b → σ → ℚ) :
    Fin b → Fin a → σ → ℚ :=
  fun i o s => W o i s

/-- Broadcasting elementwise product of a 2-D tensor with a 1-D tensor:
torch aligns the 1-D factor with the trailing (last) axis. -/
def bMulLast {a b : ℕ} (W : Fin a → Fin b → ℚ) (e : ℕ → ℚ) : Fin a → Fin b → ℚ :=
  fun o i => W o i * e i.val

/-- Broadcasting elementwise product of a tensor of shape (d0, d1, spatial...)
with a tensor of shape (1, D, 1, ..., 1): the factor aligns with axis 1. -/
def bMulAxis1 {a b : ℕ} {σ : Type} (W : Fin a → Fin b → σ → ℚ) (e : ℕ → ℚ) :
    Fin a → Fin b → σ → ℚ :=
  fun o i s => W o i s * e i.val

/-- Embeds ia3.py line 86: weight = self.weight * multiplier + int(not diff). -/
def effective (v : ℕ → ℚ) (m : ℚ) (diff : Bool) : ℕ → ℚ :=
  fun j => v j * m + (if diff then 0 else 1)

/-- make_weight (ia3.py lines 85-91, before the optional view/to) for a linear
wrapped layer: org weight of shape (out, in), scale vector v of length
(in if train_input else out). -/
def make_weight_lin {O I : ℕ} (orgW : Fin O → Fin I → ℚ) (v : ℕ → ℚ)
    (train_input : Bool) (m : ℚ) (diff : Bool) : Fin O → Fin I → ℚ :=
  let w := effective v m diff
  if train_input then bMulLast orgW w
  else transpose01 (bMulLast (transpose01 orgW) w)

/-- make_weight (ia3.py lines 85-91) for a convolutional wrapped layer: org
weight of shape (out, in, spatial...), scale tensor of shape
(1, train_dim, 1, ..., 1). -/
def make_weight_conv {O I : ℕ} {σ : Type} (orgW : Fin O → Fin I → σ → ℚ)
    (v : ℕ → ℚ) (train_input : Bool) (m : ℚ) (diff : Bool) :
    Fin O → Fin I → σ → ℚ :=
  let w := effective v m diff
  if train_input then bMulAxis1 orgW w
  else transpose01c (bMulAxis1 (transpose01c orgW) w)

/-- get_diff_weight (ia3.py lines 98-102) for a linear wrapped layer:
make_weight with diff=True, paired with the constant None second component. -/
def get_diff_weight_lin {O I : ℕ} (orgW : Fin O → Fin I → ℚ) (v : ℕ → ℚ)
    (train_input : Bool) (m : ℚ) : (Fin O → Fin I → ℚ) × Option Unit :=
  (make_weight_lin orgW v train_input m true, none)

/-- get_merged_weight (ia3.py lines 104-106) for a linear wrapped layer. -/
def get_merged_weight_lin {O I : ℕ} (orgW : Fin O → Fin I → ℚ) (v : ℕ → ℚ)
    (train_input : Bool) (m : ℚ) : (Fin O → Fin I → ℚ) × Option Unit :=
  (make_weight_lin orgW v train_input m false, none)

/-- get_diff_weight for a convolutional wrapped layer. -/
def get_diff_weight_conv {O I : ℕ} {σ : Type} (orgW : Fin O → Fin I → σ → ℚ)
    (v : ℕ → ℚ) (train_input : Bool) (m : ℚ) :
    (Fin O → Fin I → σ → ℚ) × Option Unit :=
  (make_weight_conv orgW v train_input m true, none)

/-- get_merged_weight for a convolutional wrapped layer. -/
def get_merged_weight_conv {O I : ℕ} {σ : Type} (orgW : Fin O → Fin I → σ → ℚ)
    (v : ℕ → ℚ) (train_input : Bool) (m : ℚ) :
    (Fin O → Fin I → σ → ℚ) × Option Unit :=
  (make_weight_conv orgW v train_input m false, none)

/-- Claim C1: for every adapter (both scaling modes, linear and convolutional
wrapped layers) and every multiplier m, the merged weight returned by
get_merged_weight equals, elementwise, the wrapped layer's original weight
plus the diff weight returned by get_diff_weight. -/
theorem merged_eq_org_add_diff {O I : ℕ} {σ : Type}
    (orgW : Fin O → Fin I → ℚ) (orgWc : Fin O → Fin I → σ → ℚ)
    (v : ℕ → ℚ) (ti : Bool) (m : ℚ) :
    (∀ o i, (get_merged_weight_lin orgW v ti m).1 o i
        = orgW o i + (get_diff_weight_lin orgW v ti m).1 o i) ∧
    (∀ o i s, (get_merged_weight_conv orgWc v ti m).1 o i s
        = orgWc o i s + (get_diff_weight_conv orgWc v ti m).1 o i s) := by
  constructor
  · intro o i
    cases ti <;>
      simp [get_merged_weight_lin, get_diff_weight_lin, make_weight_lin,
        bMulLast, transpose01, effective] <;> ring
  · intro o i s
    cases ti <;>
      simp [get_merged_weight_conv, get_diff_weight_conv, make_weight_conv,
        bMulAxis1, transpose01c, effective] <;> ring

/-- The underlying linear operator F.linear (the op dispatched for a linear
wrapped layer): out[o] = sum_i W[o, i] * x[i], plus the optional bias. -/
def linF {O I : ℕ} (W : Fin O → Fin I → ℚ) (b : Option (Fin O → ℚ))
    (x : Fin I → ℚ) : Fin O → ℚ :=
  fun o => (∑ i, W o i * x i) + (match b with | none => 0 | some bb => bb o)

/-- The underlying 1-D convolution operator (the op dispatched for a conv1d
wrapped layer), stride 1; the input is a per-channel function of the position
so that padding is absorbed into the input function:
out[o, j] = sum_i sum_k W[o, i, k] * x[i, j + k], plus the optional bias. -/
def convF {O I K : ℕ} (W : Fin O → Fin I → Fin K → ℚ) (b : Option (Fin O → ℚ))
    (x : Fin I → ℕ → ℚ) : Fin O → ℕ → ℚ :=
  fun o j => (∑ i, ∑ k, W o i k * x i (j + k.val))
    + (match b with | none => 0 | some bb => bb o)

/-- The method _bypass_forward (ia3.py lines 108-115) over an abstract original forward
function of a linear-shaped wrapped layer: compute the effective scale; if
scaling the input, multiply the activation by it (the scale broadcasts over
the trailing feature axis) before calling org_forward; if scaling the output,
multiply org_forward's result by it. -/
def bypass_forward_abs {O I : ℕ} (orgF : (Fin I → ℚ) → Fin O → ℚ) (v : ℕ → ℚ)
    (train_input : Bool) (x : Fin I → ℚ) (scale : ℚ) (diff : Bool) :
    Fin O → ℚ :=
  let w := effective v scale diff
  let x1 := if train_input then (fun i : Fin I => x i * w i.val) else x
  let out := orgF x1
  if train_input then out else fun o => out o * w o.val

/-- The method _bypass_forward over an abstract original forward function of a
convolutional wrapped layer; the scale tensor of shape (1, D, 1, ..., 1)
broadcasts over the channel axis of the activation. -/
def bypass_forward_conv_abs {O I : ℕ} (orgF : (Fin I → ℕ → ℚ) → Fin O → ℕ → ℚ)
    (v : ℕ → ℚ) (train_input : Bool) (x : Fin I → ℕ → ℚ) (scale : ℚ)
    (diff : Bool) : Fin O → ℕ → ℚ :=
  let w := effective v scale diff
  let x1 := if train_input then (fun (i : Fin I) (t : ℕ) => x i t * w i.val) else x
  let out := orgF x1
  if train_input then out else fun o j => out o j * w o.val

/-- The method _bypass_forward when the wrapped layer is a linear layer whose original
forward is linF with its weight and bias. -/
def bypass_forward_lin {O I : ℕ} (W : Fin O → Fin I → ℚ)
    (b : Option (Fin O → ℚ)) (v : ℕ → ℚ) (train_input : Bool) (x : Fin I → ℚ)
    (scale : ℚ) (diff : Bool) : Fin O → ℚ :=
  bypass_forward_abs (linF W b) v train_input x scale diff

/-- The method _bypass_forward when the wrapped layer is a conv1d layer whose original
forward is convF with its weight and bias. -/
def bypass_forward_conv {O I K : ℕ} (W : Fin O → Fin I → Fin K → ℚ)
    (b : Option (Fin O → ℚ)) (v : ℕ → ℚ) (train_input : Bool)
    (x : Fin I → ℕ → ℚ) (scale : ℚ) (diff : Bool) : Fin O → ℕ → ℚ :=
  bypass_forward_conv_abs (convF W b) v train_input x scale diff

/-- Claim C2: for every adapter on a wrapped layer with no bias, every input
and the same multiplier, the bypass-mode forward output equals the output of
the underlying operator applied with get_merged_weight's result, for both
scaling modes and for linear as well as convolutional wrapped layers. -/
theorem bypass_eq_merged_forward {O I K : ℕ}
    (W : Fin O → Fin I → ℚ) (Wc : Fin O → Fin I → Fin K → ℚ)
    (v : ℕ → ℚ) (ti : Bool) (m : ℚ) (x : Fin I → ℚ) (xc : Fin I → ℕ → ℚ) :
    (∀ o, bypass_forward_lin W none v ti x m false o
        = linF (get_merged_weight_lin W v ti m).1 none x o) ∧
    (∀ o j, bypass_forward_conv Wc none v ti xc m false o j
        = convF (get_merged_weight_conv Wc v ti m).1 none xc o j) := by
  constructor
  · intro o
    cases ti
    · simp only [bypass_forward_lin, bypass_forward_abs, linF,
        get_merged_weight_lin, make_weight_lin, bMulLast, transpose01,
        effective, Bool.false_eq_true, if_false, add_zero, Finset.sum_mul]
      exact Finset.sum_congr rfl fun i _ => by ring
    · simp only [bypass_forward_lin, bypass_forward_abs, linF,
        get_merged_weight_lin, make_weight_lin, bMulLast, effective,
        if_true, add_zero]
      exact Finset.sum_congr rfl fun i _ => by ring
  · intro o j
    cases ti
    · simp only [bypass_forward_conv, bypass_forward_conv_abs, convF,
        get_merged_weight_conv, make_weight_conv, bMulAxis1, transpose01c,
        effective, Bool.false_eq_true, if_false, add_zero, Finset.sum_mul]
      exact Finset.sum_congr rfl fun i _ =>
        Finset.sum_congr rfl fun k _ => by ring
    · simp only [bypass_forward_conv, bypass_forward_conv_abs, convF,
        get_merged_weight_conv, make_weight_conv, bMulAxis1, effective,
        if_true, add_zero]
      exact Finset.sum_congr rfl fun i _ =>
        Finset.sum_congr rfl fun k _ => by ring

/-- Claim C3: make_weight computes effective = scale_vector * multiplier +
(0 when producing a diff, 1 when producing a merged weight); with
scale-on-input the wrapped weight is multiplied by effective directly,
broadcasting over the input-channel axis (element (o, i) picks effective at
i); with scale-on-output, transposing axes 0 and 1, multiplying and
transposing back lands the scaling on the output-channel axis (element (o, i)
picks effective at o); likewise on the channel axes of a convolutional
weight. -/
theorem make_weight_effective_and_axes {O I : ℕ} {σ : Type}
    (orgW : Fin O → Fin I → ℚ) (orgWc : Fin O → Fin I → σ → ℚ)
    (v : ℕ → ℚ) (m : ℚ) (diff : Bool) :
    (∀ o i, make_weight_lin orgW v true m diff o i
        = orgW o i * (v i.val * m + (if diff then 0 else 1))) ∧
    (∀ o i, make_weight_lin orgW v false m diff o i
        = orgW o i * (v o.val * m + (if diff then 0 else 1))) ∧
    (∀ o i s, make_weight_conv orgWc v true m diff o i s
        = orgWc o i s * (v i.val * m + (if diff then 0 else 1))) ∧
    (∀ o i s, make_weight_conv orgWc v false m diff o i s
        = orgWc o i s * (v o.val * m + (if diff then 0 else 1))) := by
  refine ⟨fun o i => ?_, fun o i => ?_, fun o i s => ?_, fun o i s => ?_⟩ <;>
    simp [make_weight_lin, make_weight_conv, bMulLast, bMulAxis1,
      transpose01, transpose01c, effective]

/-- Claim C4: on a zero-initialized adapter wrapping a linear layer with
scale-on-input=false, get_merged_weight at multiplier 1 returns exactly the
wrapped layer's original weight. -/
theorem merged_weight_identity_at_zero {O I : ℕ}
    (orgW : Fin O → Fin I → ℚ) (v : ℕ → ℚ) (hv : ∀ j, v j = 0) :
    ∀ o i, (get_merged_weight_lin orgW v false 1).1 o i = orgW o i := by
  intro o i
  simp [get_merged_weight_lin, make_weight_lin, bMulLast, transpose01,
    effective, hv]

/-- Witness for C4 at a concrete adapter: out = in = 1, original weight 5. -/
theorem merged_weight_identity_at_zero_witness :
    (get_merged_weight_lin (fun (_ : Fin 1) (_ : Fin 1) => (5 : ℚ))
        (fun _ => 0) false 1).1 0 0 = 5 :=
  merged_weight_identity_at_zero (fun _ _ => (5 : ℚ)) (fun _ => 0)
    (fun _ => rfl) 0 0

/-- Claim C5: on a zero-initialized adapter, get_diff_weight returns the
all-zero tensor for every multiplier, in both scaling modes, for linear and
convolutional wrapped layers. -/
theorem diff_weight_zero_at_zero {O I : ℕ} {σ : Type}
    (orgW : Fin O → Fin I → ℚ) (orgWc : Fin O → Fin I → σ → ℚ)
    (v : ℕ → ℚ) (hv : ∀ j, v j = 0) (m : ℚ) (ti : Bool) :
    (∀ o i, (get_diff_weight_lin orgW v ti m).1 o i = 0) ∧
    (∀ o i s, (get_diff_weight_conv orgWc v ti m).1 o i s = 0) := by
  constructor
  · intro o i
    cases ti <;>
      simp [get_diff_weight_lin, make_weight_lin, bMulLast, transpose01,
        effective, hv]
  · intro o i s
    cases ti <;>
      simp [get_diff_weight_conv, make_weight_conv, bMulAxis1, transpose01c,
        effective, hv]

/-- Witness for C5 at a concrete adapter: out = in = 1, one spatial position,
original weights 5, multiplier 7, scale-on-output. -/
theorem diff_weight_zero_at_zero_witness :
    (get_diff_weight_lin (fun (_ : Fin 1) (_ : Fin 1) => (5 : ℚ))
        (fun _ => 0) false 7).1 0 0 = 0 ∧
    (get_diff_weight_conv (fun (_ : Fin 1) (_ : Fin 1) (_ : Fin 1) => (5 : ℚ))
        (fun _ => 0) false 7).1 0 0 0 = 0 :=
  ⟨(diff_weight_zero_at_zero (fun _ _ => (5 : ℚ))
      (fun (_ : Fin 1) (_ : Fin 1) (_ : Fin 1) => (5 : ℚ)) (fun _ => 0)
      (fun _ => rfl) 7 false).1 0 0,
   (diff_weight_zero_at_zero (fun (_ : Fin 1) (_ : Fin 1) => (5 : ℚ))
      (fun _ _ _ => (5 : ℚ)) (fun _ => 0)
      (fun _ => rfl) 7 false).2 0 0 0⟩

/-- The skip condition of forward (ia3.py lines 124-125): module_dropout is
truthy (nonzero), the module is in training mode, and the uniform draw falls
below module_dropout. -/
def takes_skip_path (module_dropout : ℚ) (training : Bool) (r : ℚ) : Prop :=
  module_dropout ≠ 0 ∧ training = true ∧ r < module_dropout

instance (d : ℚ) (t : Bool) (r : ℚ) : Decidable (takes_skip_path d t r) := by
  unfold takes_skip_path
  infer_instance

/-- The part of forward after the dropout check (ia3.py lines 127-136) for a
linear wrapped layer: bypass_forward at self.multiplier in bypass mode,
otherwise the op applied with the merged weight and the wrapped layer's
bias. -/
def forward_rest {O I : ℕ} (W : Fin O → Fin I → ℚ) (b : Option (Fin O → ℚ))
    (v : ℕ → ℚ) (train_input : Bool) (multiplier : ℚ) (bypass_mode : Bool)
    (x : Fin I → ℚ) : Fin O → ℚ :=
  if bypass_mode then bypass_forward_lin W b v train_input x multiplier false
  else linF (get_merged_weight_lin W v train_input multiplier).1 b x

/-- forward (ia3.py lines 123-136) for a linear wrapped layer, with the
single uniform random draw r passed in explicitly, mirroring the nested ifs
of the source: the outer test is Python truthiness of module_dropout together
with training mode, the inner test compares the draw with module_dropout. -/
def forward_lin {O I : ℕ} (W : Fin O → Fin I → ℚ) (b : Option (Fin O → ℚ))
    (v : ℕ → ℚ) (train_input : Bool) (multiplier module_dropout : ℚ)
    (training bypass_mode : Bool) (r : ℚ) (x : Fin I → ℚ) : Fin O → ℚ :=
  if module_dropout ≠ 0 ∧ training = true then
    if r < module_dropout then linF W b x
    else forward_rest W b v train_input multiplier bypass_mode x
  else forward_rest W b v train_input multiplier bypass_mode x

/-- Claim C6: forward takes the dropout skip path (returning the wrapped
layer's original output) exactly when module_dropout is nonzero, the adapter
is training, and the uniform draw in [0,1) falls below module_dropout; with
module_dropout = 1 in training mode forward always returns the original
output, and with module_dropout = 0 the skip path is never taken. -/
theorem forward_dropout_skip {O I : ℕ} (W : Fin O → Fin I → ℚ)
    (b : Option (Fin O → ℚ)) (v : ℕ → ℚ) (ti : Bool) (mult d : ℚ)
    (training bypass : Bool) (r : ℚ) (x : Fin I → ℚ) :
    (forward_lin W b v ti mult d training bypass r x
        = if takes_skip_path d training r then linF W b x
          else forward_rest W b v ti mult bypass x) ∧
    (takes_skip_path d training r ↔ d ≠ 0 ∧ training = true ∧ r < d) ∧
    (d = 1 → training = true → 0 ≤ r → r < 1 →
        forward_lin W b v ti mult d training bypass r x = linF W b x) ∧
    (d = 0 → ¬ takes_skip_path d training r) := by
  refine ⟨?_, Iff.rfl, ?_, ?_⟩
  · unfold forward_lin takes_skip_path
    by_cases h1 : d ≠ 0 ∧ training = true
    · by_cases h2 : r < d <;> simp [h1, h2]
    · have : ¬ (d ≠ 0 ∧ training = true ∧ r < d) := fun hc => h1 ⟨hc.1, hc.2.1⟩
      simp [h1, this]
  · intro hd ht hr0 hr1
    subst hd; subst ht
    simp [forward_lin, hr1]
  · intro hd
    subst hd
    exact fun hc => hc.1 rfl

/-- Witness for C6: a concrete adapter with module_dropout 1, training mode,
draw 1/2 returns the original output; and module_dropout 0 never skips. -/
theorem forward_dropout_skip_witness :
    forward_lin (fun (_ : Fin 1) (_ : Fin 1) => (2 : ℚ)) none (fun _ => 3)
        false 1 1 true false (1 / 2) (fun _ => 1)
      = linF (fun (_ : Fin 1) (_ : Fin 1) => (2 : ℚ)) none (fun _ => 1) ∧
    ¬ takes_skip_path 0 true (1 / 2) :=
  ⟨(forward_dropout_skip (fun (_ : Fin 1) (_ : Fin 1) => (2 : ℚ)) none
      (fun _ => 3) false 1 1 true false (1 / 2) (fun _ => 1)).2.2.1
      rfl rfl (by norm_num) (by norm_num),
   (forward_dropout_skip (fun (_ : Fin 1) (_ : Fin 1) => (2 : ℚ)) none
      (fun _ => 3) false 1 0 true false (1 / 2) (fun _ => 1)).2.2.2 rfl⟩

/-- Claim C10: for every scale-on-output adapter, every input and every
scale, the full bypass output decomposes additively as
org_forward(x) + bypass_forward_diff(x, s); and the decomposition can fail
for a scale-on-input adapter when the wrapped forward is not additive, e.g.
a linear layer of zero weight with bias 1 and scale vector 1. -/
theorem bypass_additive_decomposition {O I : ℕ}
    (orgF : (Fin I → ℚ) → Fin O → ℚ) (v : ℕ → ℚ) (x : Fin I → ℚ) (s : ℚ) :
    (∀ o, bypass_forward_abs orgF v false x s false o
        = orgF x o + bypass_forward_abs orgF v false x s true o) ∧
    (bypass_forward_lin (fun (_ : Fin 1) (_ : Fin 1) => (0 : ℚ))
          (some fun _ => 1) (fun _ => 1) true (fun _ => 1) 1 false 0
        ≠ linF (fun (_ : Fin 1) (_ : Fin 1) => (0 : ℚ)) (some fun _ => 1)
            (fun _ => 1) 0
          + bypass_forward_lin (fun (_ : Fin 1) (_ : Fin 1) => (0 : ℚ))
              (some fun _ => 1) (fun _ => 1) true (fun _ => 1) 1 true 0) := by
  constructor
  · intro o
    simp only [bypass_forward_abs, effective, Bool.false_eq_true, if_false,
      if_true]
    ring
  · simp [bypass_forward_lin, bypass_forward_abs, linF, effective]

/-- Witness for C10: the decomposition at a concrete scale-on-output adapter
with an affine original forward, scale vector 2, input 3, scale 1. -/
theorem bypass_additive_decomposition_witness :
    bypass_forward_abs (fun (y : Fin 1 → ℚ) (_ : Fin 1) => y 0 + 1) (fun _ => 2) false
        (fun _ => 3) 1 false 0
      = (fun (y : Fin 1 → ℚ) (_ : Fin 1) => y 0 + 1) (fun _ => 3) 0
        + bypass_forward_abs (fun (y : Fin 1 → ℚ) (_ : Fin 1) => y 0 + 1) (fun _ => 2) false
            (fun _ => 3) 1 true 0 :=
  (bypass_additive_decomposition (fun (y : Fin 1 → ℚ) (_ : Fin 1) => y 0 + 1) (fun _ => 2)
    (fun _ => 3) 1).1 0

/-- A flat tensor: shape list, row-major data, device tag. -/
structure Tensor where
  shape : List ℕ
  data : List ℚ
  device : String
deriving Repr, DecidableEq

/-- torch Tensor.view on a contiguous tensor: re-interpret the same flat data
under a new shape; fails when the element counts disagree. -/
def Tensor.view (t : Tensor) (s : List ℕ) : Except String Tensor :=
  if s.prod = t.shape.prod then .ok { t with shape := s }
  else .error "shape is invalid for input size"

/-- torch Tensor.to(device): relocate the tensor, leaving shape and values
unchanged. -/
def Tensor.toDevice (t : Tensor) (d : String) : Tensor :=
  { t with device := d }

/-- ia3.py lines 9-14: the module kinds IA3Module supports. -/
def support_module : List String := ["linear", "conv1d", "conv2d", "conv3d"]

/-- The wrapped layer as the adapter sees it. Modelled from the spec: the
base-module collaborator (LycorisBaseModule, not under src/) classifies the
wrapped layer into a module-kind string (self.module_type) and exposes the
layer's weight, in/out feature or channel counts and forward entry point;
here the kind string, the weight tensor and the two counts are carried
directly. -/
structure OrgModule where
  module_type : String
  weight : Tensor
  in_dim : ℕ
  out_dim : ℕ
deriving Repr

/-- The adapter state produced by __init__ that the claims observe: the
learnable scale tensor self.weight, the cached wrapped-weight shape, the conv
marker, the multiplier, the train_input flag and the integer-valued
registered buffer on_input. -/
structure IA3State where
  lora_name : String
  shape : List ℕ
  isconv : Bool
  weight : Tensor
  multiplier : ℚ
  train_input : Bool
  on_input : ℤ
deriving Repr, DecidableEq

/-- Python str.startswith, decided on the character lists of the strings. -/
def startswith (s pre : String) : Bool :=
  pre.toList.isPrefixOf s.toList

/-- The state built by the body of __init__ (ia3.py lines 48-79) once the
supported-kind check has passed: train_dim is the in or out count according
to train_on_input; the scale tensor has shape (train_dim,) for a linear
layer and (1, train_dim, 1, ..., 1) for a convolutional one (one trailing 1
per entry of the wrapped weight shape past the first two, line 62), is
zero-initialized (line 75), and on_input = int(train_on_input) is registered
as a buffer (line 79). -/
def init_body (lora_name : String) (org : OrgModule) (multiplier : ℚ)
    (train_on_input : Bool) : IA3State :=
  let shape := org.weight.shape
  let train_dim := if train_on_input then org.in_dim else org.out_dim
  let wshape : List ℕ :=
    if startswith org.module_type "conv" then
      1 :: train_dim :: (shape.drop 2).map (fun _ => 1)
    else [train_dim]
  { lora_name := lora_name
    shape := shape
    isconv := startswith org.module_type "conv"
    weight := { shape := wshape
                data := List.replicate wshape.prod 0
                device := org.weight.device }
    multiplier := multiplier
    train_input := train_on_input
    on_input := if train_on_input then 1 else 0 }

/-- Embeds __init__ (ia3.py lines 16-79): raise ValueError (line 47) when the module
kind is not in support_module, otherwise build the adapter state. -/
def IA3init (lora_name : String) (org : OrgModule) (multiplier : ℚ)
    (train_on_input : Bool) : Except String IA3State :=
  if org.module_type ∈ support_module then
    .ok (init_body lora_name org multiplier train_on_input)
  else .error (org.module_type ++ " is not supported in IA^3 algo.")

/-- Claim C7: construction fails exactly when the wrapped layer's kind is not
one of linear, conv1d, conv2d, conv3d; the failure is the synchronous result
of __init__ and its message names the offending kind; for the four supported
kinds construction succeeds. -/
theorem init_supported_kinds (name : String) (org : OrgModule) (m : ℚ)
    (t : Bool) :
    ((∃ st, IA3init name org m t = .ok st) ↔ org.module_type ∈ support_module) ∧
    (org.module_type ∉ support_module →
      IA3init name org m t
        = .error (org.module_type ++ " is not supported in IA^3 algo.")) := by
  constructor
  · constructor
    · intro ⟨st, hst⟩
      by_contra hmem
      simp [IA3init, hmem] at hst
    · intro hmem
      exact ⟨_, by unfold IA3init; rw [if_pos hmem]⟩
  · intro hmem
    simp [IA3init, hmem]

/-- Witness for C7: a linear wrapped layer constructs, an embedding layer is
rejected with a message naming it. -/
theorem init_supported_kinds_witness :
    (∃ st, IA3init "a" ⟨"linear", ⟨[2, 3], List.replicate 6 1, "cpu"⟩, 3, 2⟩
        1 false = .ok st) ∧
    IA3init "a" ⟨"embedding", ⟨[2, 3], List.replicate 6 1, "cpu"⟩, 3, 2⟩
        1 false = .error "embedding is not supported in IA^3 algo." :=
  ⟨(init_supported_kinds "a"
      ⟨"linear", ⟨[2, 3], List.replicate 6 1, "cpu"⟩, 3, 2⟩ 1 false).1.2
      (by decide),
   (init_supported_kinds "a"
      ⟨"embedding", ⟨[2, 3], List.replicate 6 1, "cpu"⟩, 3, 2⟩ 1 false).2
      (by decide)⟩

theorem map_one_eq_replicate (l : List ℕ) :
    l.map (fun _ => (1 : ℕ)) = List.replicate l.length 1 := by
  induction l with
  | nil => rfl
  | cons a l ih => simp [ih, List.replicate_succ]

theorem init_body_isconv (name : String) (org : OrgModule) (m : ℚ) (t : Bool) :
    (init_body name org m t).isconv = startswith org.module_type "conv" := rfl

theorem init_body_weight_shape (name : String) (org : OrgModule) (m : ℚ)
    (t : Bool) :
    (init_body name org m t).weight.shape =
      if startswith org.module_type "conv" then
        1 :: (if t then org.in_dim else org.out_dim)
          :: (org.weight.shape.drop 2).map (fun _ => 1)
      else [if t then org.in_dim else org.out_dim] := by
  simp only [init_body]

theorem init_body_weight_data (name : String) (org : OrgModule) (m : ℚ)
    (t : Bool) :
    (init_body name org m t).weight.data
      = List.replicate (init_body name org m t).weight.shape.prod 0 := by
  simp only [init_body]

theorem init_body_on_input (name : String) (org : OrgModule) (m : ℚ)
    (t : Bool) :
    (init_body name org m t).on_input = (if t then 1 else 0) := rfl

/-- Claim C9: after successful construction, the scale tensor has shape
(train_dim,) for a linear wrapped layer and (1, train_dim, 1, ..., 1) with
one trailing singleton per spatial dimension for a convolutional one, where
train_dim is the in count when scale-on-input and the out count otherwise; it
is all zeros; and on_input is the integer int(train_on_input). -/
theorem init_state_shape (name : String) (org : OrgModule) (m : ℚ) (t : Bool)
    (st : IA3State) (h : IA3init name org m t = .ok st) :
    (st.isconv = true →
      st.weight.shape
        = [1, if t then org.in_dim else org.out_dim]
          ++ List.replicate (org.weight.shape.length - 2) 1) ∧
    (st.isconv = false →
      st.weight.shape = [if t then org.in_dim else org.out_dim]) ∧
    (∀ q ∈ st.weight.data, q = 0) ∧
    st.on_input = (if t then 1 else 0) := by
  have hmem : org.module_type ∈ support_module := by
    by_contra hmem
    simp [IA3init, hmem] at h
  have hst : st = init_body name org m t := by
    simp only [IA3init, hmem, if_true, Except.ok.injEq] at h
    exact h.symm
  subst hst
  refine ⟨fun hc => ?_, fun hc => ?_, fun q hq => ?_,
    init_body_on_input name org m t⟩
  · rw [init_body_isconv] at hc
    rw [init_body_weight_shape, if_pos hc, map_one_eq_replicate,
      List.length_drop]
    rfl
  · rw [init_body_isconv] at hc
    rw [init_body_weight_shape, if_neg (by simp [hc])]
  · rw [init_body_weight_data] at hq
    exact List.eq_of_mem_replicate hq

instance {ε α : Type} [DecidableEq ε] [DecidableEq α] :
    DecidableEq (Except ε α) := fun a b =>
  match a, b with
  | .error e, .error f =>
      if h : e = f then .isTrue (by rw [h]) else .isFalse (by simp [h])
  | .error _, .ok _ => .isFalse (by simp)
  | .ok _, .error _ => .isFalse (by simp)
  | .ok u, .ok w =>
      if h : u = w then .isTrue (by rw [h]) else .isFalse (by simp [h])

/-- Witness for C9 at a concrete conv2d layer with 3 in and 2 out channels,
scale-on-output. -/
theorem init_state_shape_witness :
    (⟨"a", [2, 3, 5, 5], true,
        ⟨[1, 2, 1, 1], List.replicate 2 0, "cpu"⟩, 1, false, 0⟩ :
          IA3State).weight.shape = [1, 2] ++ List.replicate 2 1 ∧
    (∀ q ∈ (⟨"a", [2, 3, 5, 5], true,
        ⟨[1, 2, 1, 1], List.replicate 2 0, "cpu"⟩, 1, false, 0⟩ :
          IA3State).weight.data, q = 0) :=
  have h : IA3init "a"
      ⟨"conv2d", ⟨[2, 3, 5, 5], List.replicate 60 1, "cpu"⟩, 3, 2⟩ 1 false
      = .ok ⟨"a", [2, 3, 5, 5], true,
          ⟨[1, 2, 1, 1], List.replicate 2 0, "cpu"⟩, 1, false, 0⟩ := by
    decide
  have hth := init_state_shape "a"
    ⟨"conv2d", ⟨[2, 3, 5, 5], List.replicate 60 1, "cpu"⟩, 3, 2⟩ 1 false _ h
  ⟨hth.1 rfl, hth.2.2.1⟩

/-- make_weight (ia3.py lines 85-96) over flat tensors, for a linear wrapped
layer whose org weight has shape (out, in) stored row-major: the broadcast
product with the effective scale picks, at flat position n, the effective
entry at the input index n % in when scaling the input and at the output
index n / in when scaling the output (the transpose pair of lines 90-91
realizes the latter; theorem make_weight_effective_and_axes settles the
elementwise content); then the optional view (lines 92-93) and the optional
device move (lines 94-95) are applied to the result. -/
def make_weight_flat (scale : List ℚ) (orgW : Tensor) (train_input : Bool)
    (m : ℚ) (shape : Option (List ℕ)) (device : Option String) (diff : Bool) :
    Except String Tensor :=
  let I := orgW.shape.getD 1 0
  let e := scale.map (fun a => a * m + (if diff then 0 else 1))
  let core : Tensor :=
    { shape := orgW.shape
      data := (List.range orgW.data.length).map
        (fun n => orgW.data.getD n 0
          * e.getD (if train_input then n % I else n / I) 0)
      device := orgW.device }
  let viewed : Except String Tensor :=
    match shape with
    | none => .ok core
    | some s => core.view s
  match viewed with
  | .error msg => .error msg
  | .ok u => .ok (match device with | none => u | some d => u.toDevice d)

/-- get_diff_weight over flat tensors. -/
def get_diff_weight_flat (scale : List ℚ) (orgW : Tensor) (train_input : Bool)
    (m : ℚ) (shape : Option (List ℕ)) (device : Option String) :
    Except String (Tensor × Option Unit) :=
  match make_weight_flat scale orgW train_input m shape device true with
  | .error msg => .error msg
  | .ok u => .ok (u, none)

/-- get_merged_weight over flat tensors. -/
def get_merged_weight_flat (scale : List ℚ) (orgW : Tensor)
    (train_input : Bool) (m : ℚ) (shape : Option (List ℕ))
    (device : Option String) : Except String (Tensor × Option Unit) :=
  match make_weight_flat scale orgW train_input m shape device false with
  | .error msg => .error msg
  | .ok u => .ok (u, none)

theorem make_weight_flat_post (scale : List ℚ) (orgW : Tensor) (ti : Bool)
    (m : ℚ) (shape : Option (List ℕ)) (device : Option String) (diff : Bool)
    (t t0 : Tensor)
    (h : make_weight_flat scale orgW ti m shape device diff = .ok t)
    (h0 : make_weight_flat scale orgW ti m none none diff = .ok t0) :
    t.data = t0.data ∧
    (device = none → t.device = t0.device) ∧
    (∀ d, device = some d → t.device = d) ∧
    (∀ s, shape = some s → t.shape = s) := by
  simp only [make_weight_flat] at h0
  rw [Except.ok.injEq] at h0
  subst h0
  cases shape with
  | none =>
    simp only [make_weight_flat] at h
    cases device with
    | none =>
      rw [Except.ok.injEq] at h
      subst h
      refine ⟨rfl, fun _ => rfl, ?_, ?_⟩
      · intro d hd
        cases hd
      · intro s hs
        cases hs
    | some d =>
      rw [Except.ok.injEq] at h
      subst h
      refine ⟨rfl, ?_, ?_, ?_⟩
      · intro hd
        cases hd
      · intro d1 hd
        cases hd
        rfl
      · intro s hs
        cases hs
  | some s =>
    simp only [make_weight_flat, Tensor.view] at h
    by_cases hp : s.prod
        = (⟨orgW.shape, (List.range orgW.data.length).map
            (fun n => orgW.data.getD n 0
              * (scale.map (fun a => a * m + (if diff then 0 else 1))).getD
                  (if ti then n % orgW.shape.getD 1 0
                   else n / orgW.shape.getD 1 0) 0),
            orgW.device⟩ : Tensor).shape.prod
    · rw [if_pos hp] at h
      cases device with
      | none =>
        rw [Except.ok.injEq] at h
        subst h
        refine ⟨rfl, fun _ => rfl, ?_, ?_⟩
        · intro d hd
          cases hd
        · intro s1 hs
          cases hs
          rfl
      | some d =>
        rw [Except.ok.injEq] at h
        subst h
        refine ⟨rfl, ?_, ?_, ?_⟩
        · intro hd
          cases hd
        · intro d1 hd
          cases hd
          rfl
        · intro s1 hs
          cases hs
          rfl
    · rw [if_neg hp] at h
      cases h

/-- Claim C8: the shape and device arguments of get_merged_weight and
get_diff_weight affect only the shape and the device of the returned tensor,
never its element values: against the same call without the arguments, the
flat data is identical, the device of the result is the requested one (or
the unmoved one when absent), and the shape is the requested one; the
entry points are pure state readers, so no adapter state is mutated. -/
theorem weight_args_only_shape_device (scale : List ℚ) (orgW : Tensor)
    (ti : Bool) (m : ℚ) (shape : Option (List ℕ)) (device : Option String) :
    (∀ t t0, get_merged_weight_flat scale orgW ti m shape device = .ok t →
      get_merged_weight_flat scale orgW ti m none none = .ok t0 →
      t.1.data = t0.1.data ∧
      (device = none → t.1.device = t0.1.device) ∧
      (∀ d, device = some d → t.1.device = d) ∧
      (∀ s, shape = some s → t.1.shape = s)) ∧
    (∀ t t0, get_diff_weight_flat scale orgW ti m shape device = .ok t →
      get_diff_weight_flat scale orgW ti m none none = .ok t0 →
      t.1.data = t0.1.data ∧
      (device = none → t.1.device = t0.1.device) ∧
      (∀ d, device = some d → t.1.device = d) ∧
      (∀ s, shape = some s → t.1.shape = s)) := by
  constructor
  · intro t t0 h h0
    unfold get_merged_weight_flat at h h0
    cases hm : make_weight_flat scale orgW ti m shape device false with
    | error msg => rw [hm] at h; cases h
    | ok u =>
      cases hm0 : make_weight_flat scale orgW ti m none none false with
      | error msg => rw [hm0] at h0; cases h0
      | ok u0 =>
        rw [hm] at h; rw [hm0] at h0
        rw [Except.ok.injEq] at h h0
        subst h; subst h0
        obtain ⟨h1, h2, h3, h4⟩ := make_weight_flat_post scale orgW ti m
          shape device false u u0 hm hm0
        exact ⟨h1, h2, h3, h4⟩
  · intro t t0 h h0
    unfold get_diff_weight_flat at h h0
    cases hm : make_weight_flat scale orgW ti m shape device true with
    | error msg => rw [hm] at h; cases h
    | ok u =>
      cases hm0 : make_weight_flat scale orgW ti m none none true with
      | error msg => rw [hm0] at h0; cases h0
      | ok u0 =>
        rw [hm] at h; rw [hm0] at h0
        rw [Except.ok.injEq] at h h0
        subst h; subst h0
        obtain ⟨h1, h2, h3, h4⟩ := make_weight_flat_post scale orgW ti m
          shape device true u u0 hm hm0
        exact ⟨h1, h2, h3, h4⟩

/-- Witness for C8 at a concrete adapter: scale vector (3), org weight of
shape (1, 1) with entry 2 on device q, multiplier 1, requested shape (1) and
device cuda. -/
theorem weight_args_only_shape_device_witness :
    (⟨⟨[1], [8], "cuda"⟩, none⟩ : Tensor × Option Unit).1.data
        = (⟨⟨[1, 1], [8], "q"⟩, none⟩ : Tensor × Option Unit).1.data ∧
    ((some "cuda" : Option String) = none →
      (⟨⟨[1], [8], "cuda"⟩, none⟩ : Tensor × Option Unit).1.device
        = (⟨⟨[1, 1], [8], "q"⟩, none⟩ : Tensor × Option Unit).1.device) ∧
    (∀ d, (some "cuda" : Option String) = some d →
      (⟨⟨[1], [8], "cuda"⟩, none⟩ : Tensor × Option Unit).1.device = d) ∧
    (∀ s, (some [1] : Option (List ℕ)) = some s →
      (⟨⟨[1], [8], "cuda"⟩, none⟩ : Tensor × Option Unit).1.shape = s) :=
  (weight_args_only_shape_device [3] ⟨[1, 1], [2], "q"⟩ false 1
      (some [1]) (some "cuda")).1
    ⟨⟨[1], [8], "cuda"⟩, none⟩ ⟨⟨[1, 1], [8], "q"⟩, none⟩
    (by norm_num [get_merged_weight_flat, make_weight_flat, Tensor.view,
      Tensor.toDevice, List.range_succ])
    (by norm_num [get_merged_weight_flat, make_weight_flat, Tensor.view,
      Tensor.toDevice, List.range_succ])

end IA3
